import Mathlib

/-! Verification development for the note-taking service data-access layer.
A shallow embedding of the repository's CRUD layer over its `Note` entity:
the `notes` table schema, the request-scoped session, and the canonical
`Crud` operations (plus the legacy `CrudOld` lookup helper, for the
comparison of their not-found messages).  Timestamps are modelled as
naturals read off the store clock; the store-generated primary key is an
autoincrement counter. -/

/-- Input payload for creating or updating a note: the `NoteIn` request
model carries a title and a content string. -/
structure NoteInput where
  title : String
  content : String
deriving DecidableEq, Repr

/-- A row of the `notes` table: integer primary key generated by the store,
required title and content, and a creation timestamp defaulted to the store
clock at insert time.  Before the row is flushed, `id` and `date_created`
are `none` (Python `None`). -/
structure NoteRec where
  id : Option Nat
  title : String
  content : String
  date_created : Option Nat
deriving DecidableEq, Repr

/-- The exception raised by the CRUD layer on the not-found path:
a status code and a detail message. -/
structure HTTPException where
  status_code : Nat
  detail : String
deriving DecidableEq, Repr

/-- Session operations, recorded in the order the CRUD layer issues them;
used to reason about the insert/flush/refresh/commit ordering. -/
inductive SessionOp where
  | addOp
  | flushOp
  | refreshOp
  | commitOp
  | getOp
  | deleteOp
  | executeOp
deriving DecidableEq, Repr

/-- A request-scoped unit of work.  `rows` is the session's visible view of
the table (flushed rows, each carrying its generated fields); `pending` are
added objects not yet flushed; `nextId` is the store's autoincrement
counter; `now` is the store clock used for the creation-timestamp default;
`committed` is the durable table contents; `log` records the operations
issued on this session. -/
structure Session where
  rows : List NoteRec
  pending : List NoteRec
  nextId : Nat
  now : Nat
  committed : List NoteRec
  log : List SessionOp
deriving DecidableEq, Repr

/-- Flushing one pending row: the store assigns the autoincrement key when
the primary key is absent and fills the creation-timestamp default from the
store clock when it was not supplied. -/
def flushRow (now idv : Nat) (n : NoteRec) : NoteRec :=
  { n with id := some (n.id.getD idv), date_created := some (n.date_created.getD now) }

/-- Flush a list of pending rows in order, consuming autoincrement keys;
returns the flushed rows and the next free key. -/
def flushPending (now : Nat) : Nat → List NoteRec → List NoteRec × Nat
  | nid, [] => ([], nid)
  | nid, n :: rest =>
    let r := flushPending now (nid + 1) rest
    (flushRow now nid n :: r.1, r.2)

/-- The session's `add`: stage a new object on the session. -/
def Session.addPending (s : Session) (n : NoteRec) : Session :=
  { s with pending := s.pending ++ [n], log := s.log ++ [.addOp] }

/-- The session's `flush`: send pending inserts to the store so generated
fields (key, timestamp) become available, without finalizing. -/
def Session.flush (s : Session) : Session :=
  { s with rows := s.rows ++ (flushPending s.now s.nextId s.pending).1,
           pending := [],
           nextId := (flushPending s.now s.nextId s.pending).2,
           log := s.log ++ [.flushOp] }

/-- The session's `refresh`: re-read the row with the given primary key
from the store view, recovering the generated fields. -/
def Session.refresh (s : Session) (note_id : Nat) : Option NoteRec × Session :=
  (s.rows.find? (fun n => n.id == some note_id), { s with log := s.log ++ [.refreshOp] })

/-- The session's `commit`: flush anything still pending and make the
current view durable. -/
def Session.commit (s : Session) : Session :=
  { s with rows := s.rows ++ (flushPending s.now s.nextId s.pending).1,
           pending := [],
           nextId := (flushPending s.now s.nextId s.pending).2,
           committed := s.rows ++ (flushPending s.now s.nextId s.pending).1,
           log := s.log ++ [.commitOp] }

/-- The session's `get`: primary-key lookup in the session's view. -/
def Session.get (s : Session) (note_id : Nat) : Option NoteRec × Session :=
  (s.rows.find? (fun n => n.id == some note_id), { s with log := s.log ++ [.getOp] })

/-- The session's `delete`: remove the row with the given object's primary
key from the session's view. -/
def Session.deleteRow (s : Session) (note : NoteRec) : Session :=
  { s with rows := s.rows.filter (fun n => !(n.id == note.id)), log := s.log ++ [.deleteOp] }

/-- Render an optional number the way the message strings do. -/
def optNatStr : Option Nat → String
  | some n => toString n
  | none => "None"

/-- The router constructs a fresh `Note` from the request payload: title and
content supplied, key and timestamp left for the store. -/
def noteFromInput (inp : NoteInput) : NoteRec :=
  { id := none, title := inp.title, content := inp.content, date_created := none }

/-- Key used by the `order_by` clause: the row's primary key. -/
def idKey (n : NoteRec) : Nat := n.id.getD 0

/-- Row ordering of the `order_by(Note.id)` clause. -/
def noteLE (a b : NoteRec) : Prop := idKey a ≤ idKey b

instance : DecidableRel noteLE := fun a b => Nat.decLe (idKey a) (idKey b)

instance : IsTotal NoteRec noteLE := ⟨fun a b => Nat.le_total (idKey a) (idKey b)⟩

instance : IsTrans NoteRec noteLE := ⟨fun _ _ _ => Nat.le_trans⟩

/-- The result set of `select(Note).order_by(Note.id)`: the table rows in
ascending key order. -/
def sortById (l : List NoteRec) : List NoteRec := l.insertionSort noteLE

/-- Does the table hold a row with the given primary key. -/
def hasId (l : List NoteRec) (note_id : Nat) : Bool :=
  l.any (fun n => n.id == some note_id)

/-- Is the row's key assigned and below the autoincrement counter. -/
def idBelow (k : Nat) (n : NoteRec) : Bool := n.id.getD k < k

/-- A well-formed request session: nothing pending at request start, and
every visible row's key was assigned below the autoincrement counter. -/
def Session.WF (s : Session) : Prop :=
  s.pending = [] ∧ s.rows.all (idBelow s.nextId) = true

instance (s : Session) : Decidable s.WF := by
  unfold Session.WF; infer_instance

/-- List all notes: execute the ordered select on the session and hand the
rows back.  The body raises nothing, so the embedding is always `ok`. -/
def Crud.get_all_notes (s : Session) : Except HTTPException (List NoteRec) × Session :=
  (.ok (sortById s.rows), { s with log := s.log ++ [.executeOp] })

/-- Detail message of the canonical not-found exception: an interpolated
format string carrying the requested key. -/
def Crud.notFoundDetail (note_id : Nat) : String :=
  "Note with id: " ++ toString note_id ++ " not found"

/-- The shared lookup helper: primary-key `get`, raising a 404 exception
when no row matches. -/
def Crud.get_note_by_id_helper (s : Session) (note_id : Nat) :
    Except HTTPException NoteRec × Session :=
  match Session.get s note_id with
  | (none, s1) => (.error ⟨404, Crud.notFoundDetail note_id⟩, s1)
  | (some note, s1) => (.ok note, s1)

/-- Public single-note retrieval, delegating to the shared helper. -/
def Crud.get_note (s : Session) (note_id : Nat) : Except HTTPException NoteRec × Session :=
  Crud.get_note_by_id_helper s note_id

/-- Create a note: stage it on the session, flush so the generated key and
timestamp become available, refresh the object from the store view, commit,
and return a confirmation message built from the populated object.  The
populated object is returned alongside the new session state (modelling the
in-place mutation of the Python argument). -/
def Crud.add_new_note (s : Session) (new_note : NoteRec) : Session × NoteRec × String :=
  let assignedId := s.nextId + s.pending.length
  let s1 := s.addPending new_note
  let s2 := s1.flush
  let r := s2.refresh assignedId
  let note := r.1.getD new_note
  let s3 := (r.2).commit
  (s3, note, "New note " ++ note.title ++ " with id " ++ optNatStr note.id ++
    " created at " ++ optNatStr note.date_created)

/-- Update a note: fetch through the shared helper (propagating the 404),
overwrite title and content in place, commit, and return a message naming
the new title. -/
def Crud.update_note (s : Session) (note_id : Nat) (updated_note_data : NoteInput) :
    Except HTTPException String × Session :=
  match Crud.get_note_by_id_helper s note_id with
  | (.error e, s1) => (.error e, s1)
  | (.ok note, s1) =>
    let s2 := { s1 with rows := s1.rows.map (fun (n : NoteRec) =>
        if n.id == note.id then
          { n with title := updated_note_data.title, content := updated_note_data.content }
        else n) }
    let s3 := s2.commit
    (.ok ("Note " ++ updated_note_data.title ++ " updated"), s3)

/-- Delete a note: fetch through the shared helper (propagating the 404),
remove it from the session, commit, and return a message naming the removed
row. -/
def Crud.delete_note (s : Session) (note_id : Nat) : Except HTTPException String × Session :=
  match Crud.get_note_by_id_helper s note_id with
  | (.error e, s1) => (.error e, s1)
  | (.ok note, s1) =>
    let s2 := s1.deleteRow note
    let s3 := s2.commit
    (.ok ("Note " ++ note.title ++ " with id " ++ optNatStr note.id ++ " removed"), s3)

/-- Detail message of the legacy lookup's not-found exception: a plain
string literal in which the key placeholder is never interpolated (the
source lacks the format-string prefix). -/
def CrudOld.notFoundDetail : String :=
  "Note with id: \x7bnote_id\x7d not found"

/-- The legacy lookup helper: same primary-key `get`, but raising the 404
with the uninterpolated literal detail. -/
def CrudOld.get_note_by_id_helper (s : Session) (note_id : Nat) :
    Except HTTPException NoteRec × Session :=
  match Session.get s note_id with
  | (none, s1) => (.error ⟨404, CrudOld.notFoundDetail⟩, s1)
  | (some note, s1) => (.ok note, s1)

/-- A concrete empty request session, used to instantiate the general
theorems. -/
def emptySession : Session :=
  { rows := [], pending := [], nextId := 1, now := 0, committed := [], log := [] }

/-- A concrete session holding one committed note with key 1, used to
instantiate the general theorems. -/
def exampleSession : Session :=
  { rows := [{ id := some 1, title := "t", content := "c", date_created := some 0 }],
    pending := [], nextId := 2, now := 5,
    committed := [{ id := some 1, title := "t", content := "c", date_created := some 0 }],
    log := [] }

/-! General lemmas about the primary-key lookup, shared by the claim
theorems below. -/

theorem hasId_false_find_none {l : List NoteRec} {i : Nat} (h : hasId l i = false) :
    l.find? (fun n => n.id == some i) = none := by
  unfold hasId at h
  rw [List.find?_eq_none]
  exact List.any_eq_false.mp h

theorem helper_missing (s : Session) (i : Nat) (h : hasId s.rows i = false) :
    Crud.get_note_by_id_helper s i =
      (.error ⟨404, Crud.notFoundDetail i⟩, { s with log := s.log ++ [.getOp] }) := by
  unfold Crud.get_note_by_id_helper Session.get
  rw [hasId_false_find_none h]

theorem crudold_helper_missing (s : Session) (i : Nat) (h : hasId s.rows i = false) :
    CrudOld.get_note_by_id_helper s i =
      (.error ⟨404, CrudOld.notFoundDetail⟩, { s with log := s.log ++ [.getOp] }) := by
  unfold CrudOld.get_note_by_id_helper Session.get
  rw [hasId_false_find_none h]

theorem helper_found (s : Session) (i : Nat) (h : hasId s.rows i = true) :
    ∃ note, s.rows.find? (fun n => n.id == some i) = some note ∧
      Crud.get_note_by_id_helper s i = (.ok note, { s with log := s.log ++ [.getOp] }) ∧
      note.id = some i := by
  unfold hasId at h
  obtain ⟨x, hx, hpx⟩ := List.any_eq_true.mp h
  have hsome : (s.rows.find? (fun n => n.id == some i)).isSome :=
    List.find?_isSome.mpr ⟨x, hx, hpx⟩
  obtain ⟨note, hnote⟩ := Option.isSome_iff_exists.mp hsome
  refine ⟨note, hnote, ?_, ?_⟩
  · unfold Crud.get_note_by_id_helper Session.get
    rw [hnote]
  · have hp := List.find?_some hnote
    simpa using hp

theorem find_none_of_below {l : List NoteRec} {k i : Nat}
    (hall : l.all (idBelow k) = true) (hk : k ≤ i) :
    l.find? (fun n => n.id == some i) = none := by
  rw [List.find?_eq_none]
  intro x hx
  have hb := List.all_eq_true.mp hall x hx
  simp only [idBelow, decide_eq_true_eq] at hb
  simp only [beq_iff_eq]
  intro hc
  rw [hc] at hb
  simp only [Option.getD_some] at hb
  omega

theorem find_append_new_row {l : List NoteRec} {k : Nat}
    (hall : l.all (idBelow k) = true) {row : NoteRec} (hrow : row.id = some k) :
    (l ++ [row]).find? (fun n => n.id == some k) = some row := by
  rw [List.find?_append, find_none_of_below hall (Nat.le_refl k)]
  simp [List.find?, hrow]

theorem add_new_note_eq (s : Session) (n0 : NoteRec) (hp : s.pending = [])
    (hall : s.rows.all (idBelow s.nextId) = true) (hid : n0.id = none) :
    Crud.add_new_note s n0 =
      ({ s with
         rows := s.rows ++ [flushRow s.now s.nextId n0],
         pending := [],
         nextId := s.nextId + 1,
         committed := s.rows ++ [flushRow s.now s.nextId n0],
         log := s.log ++ [.addOp, .flushOp, .refreshOp, .commitOp] },
       flushRow s.now s.nextId n0,
       "New note " ++ n0.title ++ " with id " ++ toString s.nextId ++
         " created at " ++ toString (n0.date_created.getD s.now)) := by
  have hrow : (flushRow s.now s.nextId n0).id = some s.nextId := by
    simp [flushRow, hid]
  unfold Crud.add_new_note Session.addPending Session.flush Session.refresh Session.commit
  simp only [hp, List.nil_append, List.length_nil, Nat.add_zero, flushPending]
  rw [find_append_new_row hall hrow]
  simp [flushRow, hid, optNatStr, List.append_assoc]

theorem get_note_found (s : Session) (k : Nat) {row : NoteRec}
    (hfind : s.rows.find? (fun n => n.id == some k) = some row) :
    Crud.get_note s k = (.ok row, { s with log := s.log ++ [.getOp] }) := by
  unfold Crud.get_note Crud.get_note_by_id_helper Session.get
  rw [hfind]

/-- C1: creating a note from a request payload and then fetching it by the
generated key yields a note with the same title and content, a non-null
key, and the creation timestamp assigned at insert time; fetching it again
returns the identical note, timestamp included. -/
theorem add_then_get_roundtrip (s : Session) (inp : NoteInput) (hWF : s.WF) :
    (Crud.add_new_note s (noteFromInput inp)).2.1.id = some s.nextId ∧
    (Crud.add_new_note s (noteFromInput inp)).2.1.title = inp.title ∧
    (Crud.add_new_note s (noteFromInput inp)).2.1.content = inp.content ∧
    (Crud.add_new_note s (noteFromInput inp)).2.1.date_created = some s.now ∧
    (Crud.get_note (Crud.add_new_note s (noteFromInput inp)).1 s.nextId).1 =
      .ok (Crud.add_new_note s (noteFromInput inp)).2.1 ∧
    (Crud.get_note (Crud.get_note (Crud.add_new_note s (noteFromInput inp)).1 s.nextId).2
        s.nextId).1 =
      .ok (Crud.add_new_note s (noteFromInput inp)).2.1 := by
  obtain ⟨hp, hall⟩ := hWF
  have hrow : (flushRow s.now s.nextId (noteFromInput inp)).id = some s.nextId := by
    simp [flushRow, noteFromInput]
  rw [add_new_note_eq s (noteFromInput inp) hp hall rfl]
  refine ⟨hrow, by simp [flushRow, noteFromInput], by simp [flushRow, noteFromInput],
    by simp [flushRow, noteFromInput], ?_, ?_⟩
  · rw [get_note_found _ _ (find_append_new_row hall hrow)]
  · have h1 := get_note_found
      { s with
        rows := s.rows ++ [flushRow s.now s.nextId (noteFromInput inp)],
        pending := [], nextId := s.nextId + 1,
        committed := s.rows ++ [flushRow s.now s.nextId (noteFromInput inp)],
        log := s.log ++ [.addOp, .flushOp, .refreshOp, .commitOp] }
      s.nextId (find_append_new_row hall hrow)
    rw [h1]
    dsimp only
    rw [get_note_found _ _ (find_append_new_row hall hrow)]

theorem add_then_get_roundtrip_witness :
    (Crud.add_new_note emptySession (noteFromInput ⟨"T", "C"⟩)).2.1.id = some 1 ∧
    (Crud.add_new_note emptySession (noteFromInput ⟨"T", "C"⟩)).2.1.title = "T" ∧
    (Crud.add_new_note emptySession (noteFromInput ⟨"T", "C"⟩)).2.1.content = "C" ∧
    (Crud.add_new_note emptySession (noteFromInput ⟨"T", "C"⟩)).2.1.date_created = some 0 ∧
    (Crud.get_note (Crud.add_new_note emptySession (noteFromInput ⟨"T", "C"⟩)).1 1).1 =
      .ok (Crud.add_new_note emptySession (noteFromInput ⟨"T", "C"⟩)).2.1 ∧
    (Crud.get_note
        (Crud.get_note (Crud.add_new_note emptySession (noteFromInput ⟨"T", "C"⟩)).1 1).2 1).1 =
      .ok (Crud.add_new_note emptySession (noteFromInput ⟨"T", "C"⟩)).2.1 :=
  add_then_get_roundtrip emptySession ⟨"T", "C"⟩ (by decide)

/-- C2: fetching, updating, or deleting an id with no matching row fails
with the shared helper's 404 not-found exception, and the table (session
view and durable contents) is unchanged by the failed call. -/
theorem missing_id_fails_and_preserves_table (s : Session) (note_id : Nat) (upd : NoteInput)
    (h : hasId s.rows note_id = false) :
    (Crud.get_note_by_id_helper s note_id).1 = .error ⟨404, Crud.notFoundDetail note_id⟩ ∧
    (Crud.get_note s note_id).1 = .error ⟨404, Crud.notFoundDetail note_id⟩ ∧
    (Crud.get_note s note_id).2.rows = s.rows ∧
    (Crud.get_note s note_id).2.committed = s.committed ∧
    (Crud.update_note s note_id upd).1 = .error ⟨404, Crud.notFoundDetail note_id⟩ ∧
    (Crud.update_note s note_id upd).2.rows = s.rows ∧
    (Crud.update_note s note_id upd).2.committed = s.committed ∧
    (Crud.delete_note s note_id).1 = .error ⟨404, Crud.notFoundDetail note_id⟩ ∧
    (Crud.delete_note s note_id).2.rows = s.rows ∧
    (Crud.delete_note s note_id).2.committed = s.committed := by
  have hh := helper_missing s note_id h
  unfold Crud.get_note Crud.update_note Crud.delete_note
  rw [hh]
  simp

theorem missing_id_fails_and_preserves_table_witness :
    (Crud.get_note exampleSession 99999).1 =
      .error ⟨404, Crud.notFoundDetail 99999⟩ ∧
    (Crud.get_note exampleSession 99999).2.rows = exampleSession.rows :=
  ⟨(missing_id_fails_and_preserves_table exampleSession 99999 ⟨"x", "y"⟩ (by decide)).2.1,
   (missing_id_fails_and_preserves_table exampleSession 99999 ⟨"x", "y"⟩ (by decide)).2.2.1⟩

/-- C4: the create operation stages the insert, flushes so the generated
key and timestamp become available, reads them back into the in-memory
object, and only then commits: the session log records exactly that order,
the returned object carries the store-generated fields, and the durable
table after the commit holds it. -/
theorem add_orders_flush_before_commit (s : Session) (inp : NoteInput) (hWF : s.WF) :
    (Crud.add_new_note s (noteFromInput inp)).1.log =
      s.log ++ [.addOp, .flushOp, .refreshOp, .commitOp] ∧
    (Crud.add_new_note s (noteFromInput inp)).2.1 =
      { id := some s.nextId, title := inp.title, content := inp.content,
        date_created := some s.now } ∧
    (Crud.add_new_note s (noteFromInput inp)).1.committed =
      s.rows ++ [(Crud.add_new_note s (noteFromInput inp)).2.1] := by
  obtain ⟨hp, hall⟩ := hWF
  rw [add_new_note_eq s (noteFromInput inp) hp hall rfl]
  refine ⟨rfl, ?_, rfl⟩
  simp [flushRow, noteFromInput]

theorem add_orders_flush_before_commit_witness :
    (Crud.add_new_note emptySession (noteFromInput ⟨"T", "C"⟩)).1.log =
      [.addOp, .flushOp, .refreshOp, .commitOp] :=
  (add_orders_flush_before_commit emptySession ⟨"T", "C"⟩ (by decide)).1

/-- C5: listing returns exactly the notes present in the store (a
permutation of the table rows), sorted ascending by identifier. -/
theorem list_all_sorted_by_id (s : Session) :
    ∃ l, (Crud.get_all_notes s).1 = .ok l ∧ l.Perm s.rows ∧ l.Sorted noteLE :=
  ⟨sortById s.rows, rfl, List.perm_insertionSort noteLE s.rows,
    List.sorted_insertionSort noteLE s.rows⟩

/-- C9: listing never raises the domain not-found error: it returns
normally on every store state, and returns the empty list on the empty
table. -/
theorem list_all_never_notfound (s : Session) :
    (∀ e : HTTPException, (Crud.get_all_notes s).1 ≠ .error e) ∧
    (s.rows = [] → (Crud.get_all_notes s).1 = .ok []) := by
  constructor
  · intro e hc
    simp [Crud.get_all_notes] at hc
  · intro h
    simp [Crud.get_all_notes, sortById, h]

theorem list_all_never_notfound_witness :
    (Crud.get_all_notes emptySession).1 = .ok [] :=
  (list_all_never_notfound emptySession).2 rfl

/-- C3 counterexample: the claim that create and update return the Note
object fails: both return message strings that do not determine the stored
Note.  Two updates writing different content return identical values while
leaving different tables, and two creates with different content return
identical messages while populating different Notes. -/
theorem update_add_return_not_note :
    (Crud.update_note exampleSession 1 ⟨"T", "A"⟩).1 =
      (Crud.update_note exampleSession 1 ⟨"T", "B"⟩).1 ∧
    (Crud.update_note exampleSession 1 ⟨"T", "A"⟩).2.rows ≠
      (Crud.update_note exampleSession 1 ⟨"T", "B"⟩).2.rows ∧
    (Crud.add_new_note exampleSession (noteFromInput ⟨"T", "A"⟩)).2.2 =
      (Crud.add_new_note exampleSession (noteFromInput ⟨"T", "B"⟩)).2.2 ∧
    (Crud.add_new_note exampleSession (noteFromInput ⟨"T", "A"⟩)).2.1 ≠
      (Crud.add_new_note exampleSession (noteFromInput ⟨"T", "B"⟩)).2.1 := by
  refine ⟨rfl, by decide, rfl, by decide⟩

/-- C3 (amended): on success, create returns a confirmation message
carrying the new note's title, generated key and creation timestamp (the
populated Note object is exposed through the mutated argument, not the
return value), and update returns the message naming the new title. -/
theorem add_update_return_messages (s : Session) (inp upd : NoteInput) (note_id : Nat)
    (hWF : s.WF) (h : hasId s.rows note_id = true) :
    (Crud.add_new_note s (noteFromInput inp)).2.2 =
      "New note " ++ inp.title ++ " with id " ++ toString s.nextId ++
        " created at " ++ toString s.now ∧
    (Crud.update_note s note_id upd).1 = .ok ("Note " ++ upd.title ++ " updated") := by
  obtain ⟨hp, hall⟩ := hWF
  constructor
  · rw [add_new_note_eq s (noteFromInput inp) hp hall rfl]
    simp [noteFromInput]
  · obtain ⟨note, hfind, hhelper, hnid⟩ := helper_found s note_id h
    unfold Crud.update_note
    rw [hhelper]

theorem add_update_return_messages_witness :
    (Crud.update_note exampleSession 1 ⟨"T2", "C2"⟩).1 =
      .ok ("Note " ++ "T2" ++ " updated") :=
  (add_update_return_messages exampleSession ⟨"T", "C"⟩ ⟨"T2", "C2"⟩ 1
    (by decide) (by decide)).2

theorem find_map_id_pres (l : List NoteRec) (f : NoteRec → NoteRec)
    (hf : ∀ n, (f n).id = n.id) (i : Nat) :
    (l.map f).find? (fun n => n.id == some i) =
      (l.find? (fun n => n.id == some i)).map f := by
  have hcong : (fun n : NoteRec => n.id == some i) ∘ f =
      fun n : NoteRec => n.id == some i := by
    funext n
    simp [Function.comp, hf n]
  rw [List.find?_map, hcong]

/-- C6: updating an existing note rewrites only its title and content:
every row keeps its key and creation timestamp, and fetching the updated
note afterwards returns the originally stored row with just the title and
content overwritten. -/
theorem update_preserves_id_and_timestamp (s : Session) (note_id : Nat) (upd : NoteInput)
    (hp : s.pending = []) (h : hasId s.rows note_id = true) :
    ((Crud.update_note s note_id upd).2.rows.map (fun n => (n.id, n.date_created)) =
      s.rows.map (fun n => (n.id, n.date_created))) ∧
    (∃ old, s.rows.find? (fun n => n.id == some note_id) = some old ∧
      (Crud.get_note (Crud.update_note s note_id upd).2 note_id).1 =
        .ok { old with title := upd.title, content := upd.content }) := by
  obtain ⟨note, hfind, hhelper, hnid⟩ := helper_found s note_id h
  have hf : ∀ n : NoteRec, ((fun (n : NoteRec) =>
      if n.id == note.id then { n with title := upd.title, content := upd.content } else n)
        n).id = n.id := by
    intro n
    dsimp only
    split <;> rfl
  unfold Crud.update_note
  rw [hhelper]
  dsimp only
  unfold Session.commit
  simp only [hp, flushPending, List.append_nil]
  constructor
  · rw [List.map_map]
    have hcong : ((fun n : NoteRec => (n.id, n.date_created)) ∘ (fun (n : NoteRec) =>
        if n.id == note.id then { n with title := upd.title, content := upd.content } else n)) =
        fun n : NoteRec => (n.id, n.date_created) := by
      funext n
      dsimp only [Function.comp]
      split <;> rfl
    rw [hcong]
  · refine ⟨note, hfind, ?_⟩
    have hfind3 := find_map_id_pres s.rows (fun (n : NoteRec) =>
      if n.id == note.id then { n with title := upd.title, content := upd.content } else n)
      hf note_id
    rw [hfind] at hfind3
    simp only [Option.map_some', beq_self_eq_true, if_true] at hfind3
    rw [get_note_found _ _ hfind3]

theorem update_preserves_id_and_timestamp_witness :
    ((Crud.update_note exampleSession 1 ⟨"T2", "C2"⟩).2.rows.map
        (fun n => (n.id, n.date_created)) =
      exampleSession.rows.map (fun n => (n.id, n.date_created))) ∧
    (∃ old, exampleSession.rows.find? (fun n => n.id == some 1) = some old ∧
      (Crud.get_note (Crud.update_note exampleSession 1 ⟨"T2", "C2"⟩).2 1).1 =
        .ok { old with title := "T2", content := "C2" }) :=
  update_preserves_id_and_timestamp exampleSession 1 ⟨"T2", "C2"⟩ rfl (by decide)

theorem delete_note_found (s : Session) (note_id : Nat) (hp : s.pending = [])
    {note : NoteRec} (hfind : s.rows.find? (fun n => n.id == some note_id) = some note) :
    Crud.delete_note s note_id =
      (.ok ("Note " ++ note.title ++ " with id " ++ optNatStr note.id ++ " removed"),
       { s with
         rows := s.rows.filter (fun n => !(n.id == note.id)),
         pending := [],
         committed := s.rows.filter (fun n => !(n.id == note.id)),
         log := s.log ++ [.getOp, .deleteOp, .commitOp] }) := by
  have hhelper : Crud.get_note_by_id_helper s note_id =
      (.ok note, { s with log := s.log ++ [.getOp] }) := by
    unfold Crud.get_note_by_id_helper Session.get
    rw [hfind]
  unfold Crud.delete_note
  rw [hhelper]
  dsimp only
  unfold Session.deleteRow Session.commit
  simp [hp, flushPending, List.append_assoc]

theorem filter_removes_id {l : List NoteRec} {note : NoteRec} {note_id : Nat}
    (hnid : note.id = some note_id) :
    hasId (l.filter (fun n => !(n.id == note.id))) note_id = false := by
  unfold hasId
  rw [List.any_eq_false]
  intro x hx
  have hxf := (List.mem_filter.mp hx).2
  rw [hnid] at hxf
  simp only [Bool.not_eq_eq_eq_not, Bool.not_true, beq_eq_false_iff_ne] at hxf
  simp only [beq_iff_eq]
  exact hxf

/-- C7: deleting an existing note succeeds; afterwards fetching that key
fails with the 404 not-found exception, no note with that key appears in
the listing, and a second delete of the same key fails with the 404. -/
theorem delete_removes_and_second_delete_fails (s : Session) (note_id : Nat)
    (hp : s.pending = []) (h : hasId s.rows note_id = true) :
    (∃ m, (Crud.delete_note s note_id).1 = .ok m) ∧
    (Crud.get_note (Crud.delete_note s note_id).2 note_id).1 =
      .error ⟨404, Crud.notFoundDetail note_id⟩ ∧
    (∀ l, (Crud.get_all_notes (Crud.delete_note s note_id).2).1 = .ok l →
      ∀ n ∈ l, n.id ≠ some note_id) ∧
    (Crud.delete_note (Crud.delete_note s note_id).2 note_id).1 =
      .error ⟨404, Crud.notFoundDetail note_id⟩ := by
  obtain ⟨note, hfind, hhelper, hnid⟩ := helper_found s note_id h
  have hdel := delete_note_found s note_id hp hfind
  have hgone := filter_removes_id (l := s.rows) hnid
  rw [hdel]
  dsimp only
  refine ⟨⟨_, rfl⟩, ?_, ?_, ?_⟩
  · unfold Crud.get_note
    rw [helper_missing _ note_id hgone]
  · intro l hl n hn
    have hl2 : l = sortById (s.rows.filter (fun m => !(m.id == note.id))) := by
      unfold Crud.get_all_notes at hl
      exact (Except.ok.inj hl).symm
    rw [hl2] at hn
    have hn2 : n ∈ s.rows.filter (fun m => !(m.id == note.id)) := by
      simpa [sortById] using hn
    have hpred := (List.mem_filter.mp hn2).2
    rw [hnid] at hpred
    simp only [Bool.not_eq_eq_eq_not, Bool.not_true, beq_eq_false_iff_ne] at hpred
    exact hpred
  · unfold Crud.delete_note
    rw [helper_missing _ note_id hgone]

theorem delete_removes_and_second_delete_fails_witness :
    (∃ m, (Crud.delete_note exampleSession 1).1 = .ok m) ∧
    (Crud.get_note (Crud.delete_note exampleSession 1).2 1).1 =
      .error ⟨404, Crud.notFoundDetail 1⟩ ∧
    (∀ l, (Crud.get_all_notes (Crud.delete_note exampleSession 1).2).1 = .ok l →
      ∀ n ∈ l, n.id ≠ some 1) ∧
    (Crud.delete_note (Crud.delete_note exampleSession 1).2 1).1 =
      .error ⟨404, Crud.notFoundDetail 1⟩ :=
  delete_removes_and_second_delete_fails exampleSession 1 rfl (by decide)

/-- C8: when an operation fails because the requested key has no matching
row, the surfaced error is a 404 whose detail message contains that key. -/
theorem notfound_is_404_with_id (s : Session) (note_id : Nat) (upd : NoteInput)
    (h : hasId s.rows note_id = false) :
    ∀ e : HTTPException,
      ((Crud.get_note s note_id).1 = .error e ∨
       (Crud.update_note s note_id upd).1 = .error e ∨
       (Crud.delete_note s note_id).1 = .error e) →
      e.status_code = 404 ∧ ∃ a b, e.detail = a ++ toString note_id ++ b := by
  have hh := helper_missing s note_id h
  have hkey : ∀ e : HTTPException, HTTPException.mk 404 (Crud.notFoundDetail note_id) = e →
      e.status_code = 404 ∧ ∃ a b, e.detail = a ++ toString note_id ++ b := by
    rintro e rfl
    exact ⟨rfl, "Note with id: ", " not found", rfl⟩
  intro e he
  rcases he with he | he | he
  · unfold Crud.get_note at he
    rw [hh] at he
    exact hkey e (Except.error.inj he)
  · unfold Crud.update_note at he
    rw [hh] at he
    dsimp only at he
    exact hkey e (Except.error.inj he)
  · unfold Crud.delete_note at he
    rw [hh] at he
    dsimp only at he
    exact hkey e (Except.error.inj he)

theorem notfound_is_404_with_id_witness :
    (404 : Nat) = 404 ∧
    ∃ a b, "Note with id: " ++ toString 99999 ++ " not found" = a ++ toString 99999 ++ b :=
  notfound_is_404_with_id exampleSession 99999 ⟨"x", "y"⟩ (by decide)
    ⟨404, Crud.notFoundDetail 99999⟩
    (Or.inl (by unfold Crud.get_note; rw [helper_missing exampleSession 99999 (by decide)]))

theorem digitChar_ne_brace (k : Nat) : Nat.digitChar k ≠ '\x7b' := by
  rcases Nat.lt_or_ge k 16 with h | h
  · interval_cases k <;> decide
  · unfold Nat.digitChar
    repeat rw [if_neg (by omega)]
    decide

theorem toDigitsCore_mem (b f : Nat) :
    ∀ (n : Nat) (acc : List Char) (c : Char),
      c ∈ Nat.toDigitsCore b f n acc → c ∈ acc ∨ ∃ k, c = Nat.digitChar k := by
  induction f with
  | zero =>
    intro n acc c hmem
    exact Or.inl hmem
  | succ f ih =>
    intro n acc c hmem
    simp only [Nat.toDigitsCore] at hmem
    by_cases hz : n / b = 0
    · rw [if_pos hz] at hmem
      rcases List.mem_cons.mp hmem with h1 | h1
      · exact Or.inr ⟨n % b, h1⟩
      · exact Or.inl h1
    · rw [if_neg hz] at hmem
      rcases ih (n / b) (Nat.digitChar (n % b) :: acc) c hmem with h1 | h1
      · rcases List.mem_cons.mp h1 with h2 | h2
        · exact Or.inr ⟨n % b, h2⟩
        · exact Or.inl h2
      · exact Or.inr h1

theorem repr_char_mem (i : Nat) (c : Char) (hc : c ∈ (Nat.repr i).data) :
    ∃ k, c = Nat.digitChar k := by
  rcases toDigitsCore_mem 10 (i + 1) i [] c hc with h | h
  · cases h
  · exact h

theorem repr_data_ne_placeholder (i : Nat) :
    (toString i).data ≠ ("\x7bnote_id\x7d" : String).data := by
  intro hEq
  have hmem : '\x7b' ∈ (toString i).data := by
    rw [hEq]
    decide
  obtain ⟨k, hk⟩ := repr_char_mem i _ hmem
  exact digitChar_ne_brace k hk.symm

/-- C10: the canonical and the legacy lookup are not equivalent on the
not-found path: for every missing key, the legacy detail is the constant
literal in which the key placeholder is never interpolated, while the
canonical detail carries the decimal of the requested key, so the two
error results always differ. -/
theorem crud_vs_crudold_notfound (s : Session) (note_id : Nat)
    (h : hasId s.rows note_id = false) :
    (CrudOld.get_note_by_id_helper s note_id).1 =
      .error ⟨404, "Note with id: \x7bnote_id\x7d not found"⟩ ∧
    (∃ a b, (Crud.get_note_by_id_helper s note_id).1 =
      .error ⟨404, a ++ toString note_id ++ b⟩) ∧
    (Crud.get_note_by_id_helper s note_id).1 ≠ (CrudOld.get_note_by_id_helper s note_id).1 := by
  have h1 := crudold_helper_missing s note_id h
  have h2 := helper_missing s note_id h
  refine ⟨by rw [h1]; rfl, ⟨"Note with id: ", " not found", by rw [h2]; rfl⟩, ?_⟩
  rw [h1, h2]
  dsimp only
  intro hc
  have hdet : Crud.notFoundDetail note_id = CrudOld.notFoundDetail := by
    have hinj := Except.error.inj hc
    exact congrArg HTTPException.detail hinj
  unfold Crud.notFoundDetail CrudOld.notFoundDetail at hdet
  have hdata := congrArg String.data hdet
  rw [show ("Note with id: \x7bnote_id\x7d not found" : String).data =
      ("Note with id: " : String).data ++ ("\x7bnote_id\x7d" : String).data ++
        (" not found" : String).data from by decide] at hdata
  simp only [String.data_append] at hdata
  have hmid := List.append_cancel_left (List.append_cancel_right hdata)
  exact repr_data_ne_placeholder note_id hmid

theorem crud_vs_crudold_notfound_witness :
    (CrudOld.get_note_by_id_helper exampleSession 7).1 =
      .error ⟨404, "Note with id: \x7bnote_id\x7d not found"⟩ ∧
    (∃ a b, (Crud.get_note_by_id_helper exampleSession 7).1 =
      .error ⟨404, a ++ toString 7 ++ b⟩) ∧
    (Crud.get_note_by_id_helper exampleSession 7).1 ≠
      (CrudOld.get_note_by_id_helper exampleSession 7).1 :=
  crud_vs_crudold_notfound exampleSession 7 (by decide)
